import Mathlib

/-!
Verification of `quickmd` (src/markdown.rs and the background update loop)
against its natural-language specification.

The markdown renderer is embedded shallowly: paths are strings, the
filesystem is a `World` (reads and canonicalization may change over time),
and the external pure collaborators (`Path::parent`, the `pulldown_cmark`
parser and HTML serializer) are a fixed `Ext` record of abstract functions.
The event type mirrors the fragments of the `pulldown_cmark` event type the
code inspects.
-/

deriving instance DecidableEq for Except

namespace Quickmd

/-- Rust `io::Error`, modelled by its description string. -/
abbrev IoError := String

/-- `pulldown_cmark::CodeBlockKind`: a fenced block carries its info string. -/
inductive CodeBlockKind where
  | Fenced (info : String)
  | Indented
deriving DecidableEq

/-- The fragment of `pulldown_cmark::Tag` that `MarkdownRenderer::run` inspects:
code blocks and images (link type, url, title); every other tag is opaque. -/
inductive Tag where
  | CodeBlock (kind : CodeBlockKind)
  | Image (linkType : Nat) (url : String) (title : String)
  | OtherTag (payload : String)
deriving DecidableEq

/-- The fragment of `pulldown_cmark::Event` that `MarkdownRenderer::run`
inspects: `Start` events are matched on; all other events are opaque. -/
inductive Event where
  | Start (tag : Tag)
  | End (tag : Tag)
  | OtherEvent (payload : String)
deriving DecidableEq

/-- `RenderedContent` from src/markdown.rs: rendered HTML plus the set of
languages found in fenced code blocks (`HashSet<String>` as `Finset String`). -/
structure RenderedContent where
  html : String
  code_languages : Finset String
deriving DecidableEq

/-- `MarkdownRenderer` from src/markdown.rs: the raw path and the canonical path. -/
structure MarkdownRenderer where
  path : String
  canonical_path : String
deriving DecidableEq

/-- The filesystem as seen at one point in time: `fs::read_to_string` and
`Path::canonicalize` (which consults the filesystem and may fail). -/
structure World where
  read : String → Except IoError String
  canonicalize : String → Option String

/-- The fixed pure external collaborators of src/markdown.rs:
`Path::parent` (purely syntactic), `pulldown_cmark::Parser::new_ext` with the
options the code sets, and `pulldown_cmark::html::push_html`. -/
structure Ext where
  parent : String → Option String
  parse : String → List Event
  pushHtml : List Event → String

/-- The regex `^[a-z]+://` of src/markdown.rs line 77, as `is_match`: a
non-empty run of lowercase ASCII letters at the start, followed by `://`
(greedy matching coincides with take-while here because `:` is not a
lowercase letter). -/
def re_absolute_url_is_match (s : String) : Bool :=
  let scheme := s.data.takeWhile (fun c => decide ('a' ≤ c) && decide (c ≤ 'z'))
  decide (0 < scheme.length) &&
    List.isPrefixOf [':', '/', '/'] (s.data.drop scheme.length)

/-- The regex `^(/|\./)?` of src/markdown.rs line 78 used with
`Regex::replace(url, "")`: removes one leading `/`, or else one leading `./`,
from the start of the string (the alternation tries `/` first, and only the
single leftmost match is replaced). -/
def re_path_strip (s : String) : String :=
  match s.data with
  | '/' :: rest => String.mk rest
  | '.' :: '/' :: rest => String.mk rest
  | _ => s

/-- The closure passed to `parser.map` in `MarkdownRenderer::run` (lines
88-109): returns the languages inserted into the `HashSet` by this event
together with the (possibly rewritten) event.  A fenced code block with a
non-empty info string records its info string; an image whose url does not
match `re_absolute_url` has its url rewritten to
`file:// ++ root_dir ++ / ++ re_path_strip url`; everything else is unchanged. -/
def mapEvent (root_dir : String) (event : Event) : Finset String × Event :=
  match event with
  | .Start (.CodeBlock (.Fenced content)) =>
      (if 0 < content.length then {content} else ∅, event)
  | .Start (.Image linkType url title) =>
      if re_absolute_url_is_match url then (∅, event)
      else (∅, .Start (.Image linkType
        ("file://" ++ root_dir ++ "/" ++ re_path_strip url) title))
  | _ => (∅, event)

/-- The whole mapped iteration of `MarkdownRenderer::run`: `push_html` drives
the mapped parser through every event, so the run both accumulates the
language set and produces the transformed event stream. -/
def processEvents (root_dir : String) : List Event → Finset String × List Event
  | [] => (∅, [])
  | e :: rest =>
    let p := mapEvent root_dir e
    let q := processEvents root_dir rest
    (p.1 ∪ q.1, p.2 :: q.2)

/-- `MarkdownRenderer::new` (src/markdown.rs lines 53-60): canonicalize the
given path, falling back to the raw path if canonicalization fails; store both. -/
def MarkdownRenderer.new (w : World) (md_path : String) : MarkdownRenderer :=
  { path := md_path, canonical_path := (w.canonicalize md_path).getD md_path }

/-- `MarkdownRenderer::get_path` (lines 62-64): returns (a clone of) `self.path`. -/
def MarkdownRenderer.get_path (r : MarkdownRenderer) : String :=
  r.path

/-- `MarkdownRenderer::get_canonical_path` (lines 66-68): returns (a clone of)
`self.canonical_path`. -/
def MarkdownRenderer.get_canonical_path (r : MarkdownRenderer) : String :=
  r.canonical_path

/-- `MarkdownRenderer::run` (lines 70-118): read the file at
`self.canonical_path` (propagating the `io::Error` with `?`), take the parent
directory of the canonical path (empty path if none), parse the markdown, map
each event through the closure, serialize the mapped events to HTML, and
return the HTML together with the collected language set. -/
def MarkdownRenderer.run (ext : Ext) (w : World) (r : MarkdownRenderer) :
    Except IoError RenderedContent :=
  match w.read r.canonical_path with
  | .error e => .error e
  | .ok markdown =>
    let root_dir := (ext.parent r.canonical_path).getD ""
    let pr := processEvents root_dir (ext.parse markdown)
    .ok { html := ext.pushHtml pr.2, code_languages := pr.1 }

/-- State-passing embedding of the `&self` method `run`: the out-state is the
receiver as the method body leaves it; the body (lines 70-118) reads
`self.canonical_path` and assigns no field, so the out-state is the receiver. -/
def MarkdownRenderer.run_st (ext : Ext) (w : World) (r : MarkdownRenderer) :
    Except IoError RenderedContent × MarkdownRenderer :=
  (MarkdownRenderer.run ext w r, r)

/-- State-passing embedding of the `&self` method `get_path`; the body only
clones `self.path`. -/
def MarkdownRenderer.get_path_st (r : MarkdownRenderer) : String × MarkdownRenderer :=
  (MarkdownRenderer.get_path r, r)

/-- State-passing embedding of the `&self` method `get_canonical_path`; the
body only clones `self.canonical_path`. -/
def MarkdownRenderer.get_canonical_path_st (r : MarkdownRenderer) : String × MarkdownRenderer :=
  (MarkdownRenderer.get_canonical_path r, r)

/-! Helper lemmas about the language-collection and event-mapping pass. -/

/-- A string is non-empty exactly when its length is positive. -/
theorem string_ne_empty_iff_length_pos (l : String) : l ≠ "" ↔ 0 < l.length := by
  cases l with
  | mk data =>
    cases data with
    | nil => simp [String.length]
    | cons c cs =>
      simp only [String.length, List.length_cons]
      constructor
      · intro _; exact Nat.succ_pos _
      · intro _ h
        have : (c :: cs) = ([] : List Char) := congrArg String.data h
        exact List.cons_ne_nil c cs this

/-- The languages contributed by one event: exactly the info string of a
fenced code block with positive length, nothing otherwise. -/
theorem mem_mapEvent_fst (root_dir : String) (e : Event) (l : String) :
    l ∈ (mapEvent root_dir e).1 ↔
      (e = Event.Start (Tag.CodeBlock (CodeBlockKind.Fenced l)) ∧ 0 < l.length) := by
  cases e with
  | Start tag =>
    cases tag with
    | CodeBlock kind =>
      cases kind with
      | Fenced content =>
        by_cases h : 0 < content.length
        · simp [mapEvent, h]
          constructor
          · rintro rfl
            exact ⟨rfl, h⟩
          · rintro ⟨rfl, _⟩
            rfl
        · simp [mapEvent, h]
          rintro rfl
          exact Nat.eq_zero_of_not_pos h
      | Indented => simp [mapEvent]
    | Image linkType url title =>
      by_cases h : re_absolute_url_is_match url
      · simp [mapEvent, h]
      · simp [mapEvent, h]
    | OtherTag payload => simp [mapEvent]
  | End tag => simp [mapEvent]
  | OtherEvent payload => simp [mapEvent]

/-- The collected language set over a full event stream: exactly the info
strings of the fenced code-block start events with positive length. -/
theorem mem_processEvents_fst (root_dir : String) (l : String) (es : List Event) :
    l ∈ (processEvents root_dir es).1 ↔
      (Event.Start (Tag.CodeBlock (CodeBlockKind.Fenced l)) ∈ es ∧ 0 < l.length) := by
  induction es with
  | nil => simp [processEvents]
  | cons e rest ih =>
    simp only [processEvents, Finset.mem_union, ih, mem_mapEvent_fst, List.mem_cons]
    constructor
    · rintro (⟨rfl, hp⟩ | ⟨hm, hp⟩)
      · exact ⟨Or.inl rfl, hp⟩
      · exact ⟨Or.inr hm, hp⟩
    · rintro ⟨hm | hm, hp⟩
      · exact Or.inl ⟨hm.symm, hp⟩
      · exact Or.inr ⟨hm, hp⟩

/-- The transformed event stream fed to `push_html` is the pointwise image of
the input stream under the mapping closure. -/
theorem processEvents_snd (root_dir : String) (es : List Event) :
    (processEvents root_dir es).2 = es.map (fun e => (mapEvent root_dir e).2) := by
  induction es with
  | nil => simp [processEvents]
  | cons e rest ih => simp [processEvents, ih]

/-- The per-event url-rewriting step, split off `mapEvent`: the second
component of `mapEvent` rewrites exactly the image urls without a uri scheme. -/
theorem mapEvent_snd_eq (root_dir : String) (e : Event) :
    (mapEvent root_dir e).2 =
      (match e with
      | Event.Start (Tag.Image linkType url title) =>
          if re_absolute_url_is_match url then e
          else Event.Start (Tag.Image linkType
            ("file://" ++ root_dir ++ "/" ++ re_path_strip url) title)
      | _ => e) := by
  cases e with
  | Start tag =>
    cases tag with
    | CodeBlock kind => cases kind <;> simp [mapEvent]
    | Image linkType url title =>
      by_cases h : re_absolute_url_is_match url <;> simp [mapEvent, h]
    | OtherTag payload => simp [mapEvent]
  | End tag => simp [mapEvent]
  | OtherEvent payload => simp [mapEvent]

/-! The claims about src/markdown.rs. -/

/-- C3: `run` returns `Err e` exactly when reading the file at the renderer's
canonical path fails with `e`, and returns `Ok` on a successful read; the
embedding is a total function, so no read failure can make it panic; and the
result is independent of the raw `path` field, i.e. the file read is the one
at `get_canonical_path`, not `get_path`. -/
theorem run_err_iff_read_err (ext : Ext) (w : World) (r : MarkdownRenderer) :
    (∀ e, MarkdownRenderer.run ext w r = .error e ↔
        w.read (MarkdownRenderer.get_canonical_path r) = .error e) ∧
    (∀ s, w.read (MarkdownRenderer.get_canonical_path r) = .ok s →
        ∃ rc, MarkdownRenderer.run ext w r = .ok rc) ∧
    (∀ q, MarkdownRenderer.run ext w { path := q, canonical_path := r.canonical_path } =
        MarkdownRenderer.run ext w r) := by
  unfold MarkdownRenderer.run MarkdownRenderer.get_canonical_path
  refine ⟨?_, ?_, ?_⟩
  · intro e
    cases h : w.read r.canonical_path <;> simp [h]
  · intro s hs
    simp [hs]
  · intro q
    rfl

/-- C4: `new` always succeeds (it is a total function); the stored
`canonical_path` is the canonicalization of `p` when canonicalization
succeeds, and `p` itself when canonicalization fails; construction is the
only place canonicalization happens, its result being stored in the field. -/
theorem new_canonical_path_spec (w : World) (p : String) :
    (∀ q, w.canonicalize p = some q → (MarkdownRenderer.new w p).canonical_path = q) ∧
    (w.canonicalize p = none → (MarkdownRenderer.new w p).canonical_path = p) := by
  unfold MarkdownRenderer.new
  constructor
  · intro q hq
    simp [hq]
  · intro hq
    simp [hq]

/-- C5: on a successful run, `code_languages` holds exactly the non-empty
info strings of the fenced code blocks of the parsed input; empty info
strings and all other constructs contribute nothing. -/
theorem run_code_languages_spec (ext : Ext) (w : World) (r : MarkdownRenderer)
    (markdown : String) (rc : RenderedContent) (l : String)
    (hread : w.read r.canonical_path = .ok markdown)
    (hrun : MarkdownRenderer.run ext w r = .ok rc) :
    l ∈ rc.code_languages ↔
      (Event.Start (Tag.CodeBlock (CodeBlockKind.Fenced l)) ∈ ext.parse markdown ∧
        l ≠ "") := by
  unfold MarkdownRenderer.run at hrun
  rw [hread] at hrun
  injection hrun with hrc
  subst hrc
  simp only [string_ne_empty_iff_length_pos]
  exact mem_processEvents_fst _ l _

/-- C7: on a successful run with a parsed input, the HTML is the
serialization of the event stream in which every image url without a uri
scheme (per the regex model) is rewritten to `file://`, the parent directory
of the canonical path, `/`, and the url with one leading `/` or `./`
removed, while scheme-carrying image urls and all other events pass through
unchanged. -/
theorem run_rewrites_relative_image_urls (ext : Ext) (w : World)
    (r : MarkdownRenderer) (d markdown : String) (rc : RenderedContent)
    (hpar : ext.parent r.canonical_path = some d)
    (hread : w.read r.canonical_path = .ok markdown)
    (hrun : MarkdownRenderer.run ext w r = .ok rc) :
    rc.html = ext.pushHtml ((ext.parse markdown).map (fun e =>
      match e with
      | Event.Start (Tag.Image linkType url title) =>
          if re_absolute_url_is_match url then e
          else Event.Start (Tag.Image linkType
            ("file://" ++ d ++ "/" ++ re_path_strip url) title)
      | _ => e)) := by
  unfold MarkdownRenderer.run at hrun
  rw [hread, hpar] at hrun
  injection hrun with hrc
  subst hrc
  show ext.pushHtml (processEvents _ _).2 = _
  rw [processEvents_snd]
  congr 1
  congr 1
  funext e
  exact mapEvent_snd_eq d e

/-- C8: the renderer built by `new w p` has `get_path = p` and
`get_canonical_path` equal to the `canonical_path` field computed at
construction; on any renderer the accessors return the stored fields without
recomputing anything. -/
theorem accessors_spec (w : World) (p : String) (r : MarkdownRenderer) :
    MarkdownRenderer.get_path (MarkdownRenderer.new w p) = p ∧
    MarkdownRenderer.get_canonical_path (MarkdownRenderer.new w p) =
      (MarkdownRenderer.new w p).canonical_path ∧
    MarkdownRenderer.get_path r = r.path ∧
    MarkdownRenderer.get_canonical_path r = r.canonical_path :=
  ⟨rfl, rfl, rfl, rfl⟩

/-- C9: in the state-passing embedding of the `&self` methods, `run` (whether
it returns `Ok` or `Err`, i.e. for every world), `get_path` and
`get_canonical_path` leave both fields of the receiver unchanged: the
renderer is immutable after construction. -/
theorem methods_leave_fields_unchanged (ext : Ext) (w : World) (r : MarkdownRenderer) :
    ((MarkdownRenderer.run_st ext w r).2.path = r.path ∧
     (MarkdownRenderer.run_st ext w r).2.canonical_path = r.canonical_path) ∧
    ((MarkdownRenderer.get_path_st r).2.path = r.path ∧
     (MarkdownRenderer.get_path_st r).2.canonical_path = r.canonical_path) ∧
    ((MarkdownRenderer.get_canonical_path_st r).2.path = r.path ∧
     (MarkdownRenderer.get_canonical_path_st r).2.canonical_path = r.canonical_path) :=
  ⟨⟨rfl, rfl⟩, ⟨rfl, rfl⟩, ⟨rfl, rfl⟩⟩

/-- C10: `run` is deterministic in the file contents: two renderers with the
same canonical path, read in worlds that deliver the same bytes at that path,
produce equal results (in particular equal html and equal language sets when
both succeed). -/
theorem run_deterministic_in_content (ext : Ext) (w₁ w₂ : World)
    (r₁ r₂ : MarkdownRenderer) (s : String)
    (hcp : r₁.canonical_path = r₂.canonical_path)
    (h₁ : w₁.read r₁.canonical_path = .ok s)
    (h₂ : w₂.read r₂.canonical_path = .ok s) :
    MarkdownRenderer.run ext w₁ r₁ = MarkdownRenderer.run ext w₂ r₂ := by
  unfold MarkdownRenderer.run
  rw [h₁, h₂, hcp]

/-! Concrete fixtures on which the theorems are exercised. -/

/-- Concrete external collaborators: a fixed parent directory, a parse result
with two fenced code blocks (one with an empty info string) and two images
(one relative, one with a scheme), and a constant serializer. -/
def extFix : Ext where
  parent := fun _ => some "/docs"
  parse := fun _ =>
    [Event.Start (Tag.CodeBlock (CodeBlockKind.Fenced "rust")),
     Event.Start (Tag.CodeBlock (CodeBlockKind.Fenced "")),
     Event.Start (Tag.Image 0 "./img.png" "t"),
     Event.Start (Tag.Image 0 "https://a/b.png" "t")]
  pushHtml := fun _ => "html"

/-- A concrete filesystem snapshot: every read yields `body`, and
canonicalization resolves every path to `/docs/file.md`. -/
def worldFix : World where
  read := fun _ => Except.ok "body"
  canonicalize := fun _ => some "/docs/file.md"

/-- A concrete renderer built over `worldFix`. -/
def rFix : MarkdownRenderer := MarkdownRenderer.new worldFix "file.md"

/-- C5 witness: the language-set characterization evaluated on the concrete
fixtures at the language string `rust`. -/
theorem run_code_languages_spec_witness :
    worldFix.read rFix.canonical_path = Except.ok "body" ∧
    MarkdownRenderer.run extFix worldFix rFix =
      Except.ok { html := "html", code_languages := {"rust"} } ∧
    ("rust" ∈ ({ html := "html", code_languages := {"rust"} } : RenderedContent).code_languages ↔
      (Event.Start (Tag.CodeBlock (CodeBlockKind.Fenced "rust")) ∈ extFix.parse "body" ∧
        ("rust" : String) ≠ "")) :=
  ⟨rfl, by decide,
    run_code_languages_spec extFix worldFix rFix "body" _ "rust" rfl (by decide)⟩

/-- C7 witness: the image-url rewriting equation evaluated on the concrete
fixtures, with parent directory `/docs`. -/
theorem run_rewrites_relative_image_urls_witness :
    extFix.parent rFix.canonical_path = some "/docs" ∧
    ({ html := "html", code_languages := {"rust"} } : RenderedContent).html =
      extFix.pushHtml ((extFix.parse "body").map (fun e =>
        match e with
        | Event.Start (Tag.Image linkType url title) =>
            if re_absolute_url_is_match url then e
            else Event.Start (Tag.Image linkType
              ("file://" ++ "/docs" ++ "/" ++ re_path_strip url) title)
        | _ => e)) :=
  ⟨rfl, run_rewrites_relative_image_urls extFix worldFix rFix "/docs" "body"
    { html := "html", code_languages := {"rust"} } rfl rfl (by decide)⟩

/-- C10 witness: determinism evaluated at two concrete renderers sharing a
canonical path, in two concrete worlds delivering the same bytes. -/
theorem run_deterministic_in_content_witness :
    MarkdownRenderer.run extFix worldFix
      { path := "a.md", canonical_path := "/docs/file.md" } =
    MarkdownRenderer.run extFix
      { read := fun _ => Except.ok "body", canonicalize := fun _ => none }
      { path := "b.md", canonical_path := "/docs/file.md" } :=
  run_deterministic_in_content extFix worldFix _ _ _ "body" rfl rfl rfl

/-!
The background update loop.  Its implementation (src/background.rs) is not in
the sources; only its tests are.  The definitions below are therefore built
from the specification (sections 2-5 and 8) and the claims about the loop are
settled against them.
-/

/-- Modelled from the spec: `RawFsEvent` kinds (section 3); src/background.rs
is missing from the sources. -/
inductive FsEventKind where
  | Create
  | Write
  | Remove
  | Rename
deriving DecidableEq

/-- Modelled from the spec: `RawFsEvent` (section 3), `kind` plus affected
paths, with a timestamp to express the debounce window; src/background.rs is
missing from the sources. -/
structure RawFsEvent where
  time : Nat
  kind : FsEventKind
  affected_paths : List String
deriving DecidableEq

/-- Modelled from the spec: `OutboundMessage` (section 3), the tagged variant
`ContentReady` or `RenderFailed`; src/background.rs and the ui event type are
missing from the sources. -/
inductive OutboundMessage where
  | ContentReady (content : String)
  | RenderFailed (description : String)
deriving DecidableEq

/-- Modelled from the spec: `ChangeFilter.is_relevant` (section 4.2): an event
is relevant if any of its affected paths, once resolved, equals the target's
canonical path; src/background.rs is missing from the sources. -/
def is_relevant (resolve : String → String) (target : String) (e : RawFsEvent) : Bool :=
  e.affected_paths.any (fun p => resolve p == target)

/-- State of the coalescing fold: the closed groups so far and the currently
open group with the time of its first event. -/
structure CoalesceState where
  groups : List (List RawFsEvent)
  current : Option (Nat × List RawFsEvent)
deriving DecidableEq

/-- Modelled from the spec: one step of the debounce state machine (sections
4.2 and 9, idle/pending/firing): an event within `window` of the open group's
first event is absorbed into that group; otherwise the group closes and a new
one opens; src/background.rs is missing from the sources. -/
def coalesceStep (window : Nat) (st : CoalesceState) (e : RawFsEvent) : CoalesceState :=
  match st.current with
  | none => { st with current := some (e.time, [e]) }
  | some (t0, es) =>
    if e.time ≤ t0 + window then { st with current := some (t0, es ++ [e]) }
    else { groups := st.groups ++ [es], current := some (e.time, [e]) }

/-- Modelled from the spec: `ChangeFilter.coalesce` (section 4.2) over a
time-ordered event list: group the events so that every event within `window`
of a group's first event is absorbed into the same group;
src/background.rs is missing from the sources. -/
def coalesce (window : Nat) (events : List RawFsEvent) : List (List RawFsEvent) :=
  let st := events.foldl (coalesceStep window) ⟨[], none⟩
  match st.current with
  | none => st.groups
  | some (_, es) => st.groups ++ [es]

/-- Modelled from the spec: the edge-case policy of section 4.2: a coalesced
group emits a `ChangeSignal` unless the target was removed and never
recreated within the window, i.e. unless every event in the group is a
removal; src/background.rs is missing from the sources. -/
def group_emits (g : List RawFsEvent) : Bool :=
  g.any (fun e => e.kind != FsEventKind.Remove)

/-- Modelled from the spec: the time at which the dispatcher fires for a
group: the end of the debounce window opened by the group's first event;
src/background.rs is missing from the sources. -/
def dispatch_time (window : Nat) (g : List RawFsEvent) : Nat :=
  (g.head?.map RawFsEvent.time).getD 0 + window

/-- Modelled from the spec: `RenderDispatcher.dispatch` (section 4.3): call
the renderer once on the target's current content; a failed read produces
`RenderFailed`, a successful one `ContentReady` of the rendered content;
src/background.rs is missing from the sources.  `fileAt t` is the content of
the watched file at time `t`, `render` the external renderer. -/
def dispatch (fileAt : Nat → Option String) (render : String → String)
    (window : Nat) (g : List RawFsEvent) : OutboundMessage :=
  match fileAt (dispatch_time window g) with
  | some content => OutboundMessage.ContentReady (render content)
  | none => OutboundMessage.RenderFailed "read failed"

/-- Modelled from the spec: the messages produced by one run of the update
loop over a time-ordered list of raw filesystem events (sections 2 and 4):
keep the relevant events, coalesce them into groups, drop the groups that
emit no `ChangeSignal`, and dispatch one `OutboundMessage` per signal;
src/background.rs is missing from the sources. -/
def update_loop_messages (resolve : String → String) (target : String)
    (window : Nat) (fileAt : Nat → Option String) (render : String → String)
    (events : List RawFsEvent) : List OutboundMessage :=
  ((coalesce window (events.filter (is_relevant resolve target))).filter
      group_emits).map (dispatch fileAt render window)

/-- Actions observable on the watcher thread: completing the setup handshake,
and sending a message on the notification channel. -/
inductive LoopAction where
  | SetupHandshakeDone
  | Send (m : OutboundMessage)
deriving DecidableEq

/-- Modelled from the spec: the `UpdateLoop` states of section 4.4
(`Initializing`, `Watching`/`Dispatching` with the pending messages it will
send, `Stopped`); src/background.rs is missing from the sources. -/
inductive LoopState where
  | Initializing (queue : List OutboundMessage)
  | Watching (queue : List OutboundMessage)
  | Stopped
deriving DecidableEq

/-- Modelled from the spec: one transition of the update-loop state machine
(section 4.4): initialization completes the watcher setup handshake before
anything else; in `Watching`, each pending coalesced signal is dispatched and
its message sent; with nothing left the loop stops;
src/background.rs is missing from the sources. -/
def loop_step : LoopState → LoopState × Option LoopAction
  | .Initializing q => (.Watching q, some .SetupHandshakeDone)
  | .Watching [] => (.Stopped, none)
  | .Watching (m :: rest) => (.Watching rest, some (.Send m))
  | .Stopped => (.Stopped, none)

/-- Run the update-loop state machine for `fuel` transitions, collecting the
actions it performs. -/
def loop_trace : Nat → LoopState → List LoopAction
  | 0, _ => []
  | Nat.succ n, st =>
    match loop_step st with
    | (st2, some a) => a :: loop_trace n st2
    | (st2, none) => loop_trace n st2

/-- Modelled from the spec: `init_update_loop` (section 4.4 and the tests):
start the state machine in `Initializing`, queueing the messages the coalesced
relevant events will produce; src/background.rs is missing from the sources. -/
def init_update_loop (resolve : String → String) (target : String)
    (window : Nat) (fileAt : Nat → Option String) (render : String → String)
    (events : List RawFsEvent) (fuel : Nat) : List LoopAction :=
  loop_trace fuel
    (.Initializing (update_loop_messages resolve target window fileAt render events))

/-- Whether some `Send` action occurs strictly before the first completed
setup handshake in a trace. -/
def sends_before_handshake : List LoopAction → Bool
  | [] => false
  | LoopAction.SetupHandshakeDone :: _ => false
  | LoopAction.Send _ :: _ => true

/-! The claims about the background update loop (spec-modelled). -/

/-- C1: two relevant write events, the second within the debounce window of
the first, are coalesced into the same single group (one `ChangeSignal`), and
the update loop produces exactly one `OutboundMessage` for them, not two. -/
theorem two_writes_in_window_one_message (resolve : String → String)
    (target : String) (window : Nat) (fileAt : Nat → Option String)
    (render : String → String) (e₁ e₂ : RawFsEvent)
    (h₁ : is_relevant resolve target e₁ = true)
    (h₂ : is_relevant resolve target e₂ = true)
    (hk₁ : e₁.kind = FsEventKind.Write) (_hk₂ : e₂.kind = FsEventKind.Write)
    (hwin : e₂.time ≤ e₁.time + window) :
    coalesce window [e₁, e₂] = [[e₁, e₂]] ∧
    (update_loop_messages resolve target window fileAt render [e₁, e₂]).length = 1 := by
  constructor
  · simp [coalesce, coalesceStep, hwin]
  · simp [update_loop_messages, coalesce, coalesceStep, group_emits,
      List.filter, h₁, h₂, hwin, hk₁]

/-- C2: deleting the file and recreating it within the debounce window yields
exactly one message, a `ContentReady` carrying the recreated content as
rendered at dispatch time: no failure message before it and no duplicate
after it. -/
theorem delete_recreate_one_content_ready (resolve : String → String)
    (target : String) (window : Nat) (fileAt : Nat → Option String)
    (render : String → String) (e₁ e₂ : RawFsEvent) (newContent : String)
    (h₁ : is_relevant resolve target e₁ = true)
    (h₂ : is_relevant resolve target e₂ = true)
    (hk₁ : e₁.kind = FsEventKind.Remove) (hk₂ : e₂.kind = FsEventKind.Create)
    (hwin : e₂.time ≤ e₁.time + window)
    (hfile : fileAt (e₁.time + window) = some newContent) :
    update_loop_messages resolve target window fileAt render [e₁, e₂] =
      [OutboundMessage.ContentReady (render newContent)] := by
  simp [update_loop_messages, coalesce, coalesceStep, group_emits, dispatch,
    dispatch_time, List.filter, h₁, h₂, hwin, hk₁, hk₂, hfile]

/-- C6: in every run of the update loop, no `OutboundMessage` is sent before
the watcher thread's setup handshake has completed: the trace of
`init_update_loop` never has a `Send` before the first handshake action, so a
consumer that starts receiving right after `init_update_loop` returns cannot
miss or race the first event. -/
theorem no_send_before_handshake (resolve : String → String) (target : String)
    (window : Nat) (fileAt : Nat → Option String) (render : String → String)
    (events : List RawFsEvent) (fuel : Nat) :
    sends_before_handshake
      (init_update_loop resolve target window fileAt render events fuel) = false := by
  cases fuel with
  | zero => rfl
  | succ n => rfl

/-- C1 witness: two writes to the watched path at times 0 and 3 with a window
of 5, evaluated concretely. -/
theorem two_writes_in_window_one_message_witness :
    coalesce 5 [⟨0, FsEventKind.Write, ["t"]⟩, ⟨3, FsEventKind.Write, ["t"]⟩] =
      [[⟨0, FsEventKind.Write, ["t"]⟩, ⟨3, FsEventKind.Write, ["t"]⟩]] ∧
    (update_loop_messages (fun p => p) "t" 5 (fun _ => some "content")
      (fun s => s)
      [⟨0, FsEventKind.Write, ["t"]⟩, ⟨3, FsEventKind.Write, ["t"]⟩]).length = 1 :=
  two_writes_in_window_one_message (fun p => p) "t" 5 (fun _ => some "content")
    (fun s => s) ⟨0, FsEventKind.Write, ["t"]⟩ ⟨3, FsEventKind.Write, ["t"]⟩
    (by decide) (by decide) rfl rfl (by decide)

/-- C2 witness: a removal at time 0 and a recreation at time 2 with a window
of 5, the file holding the recreated content at dispatch time, evaluated
concretely. -/
theorem delete_recreate_one_content_ready_witness :
    update_loop_messages (fun p => p) "t" 5 (fun _ => some "new") (fun s => s)
      [⟨0, FsEventKind.Remove, ["t"]⟩, ⟨2, FsEventKind.Create, ["t"]⟩] =
      [OutboundMessage.ContentReady "new"] :=
  delete_recreate_one_content_ready (fun p => p) "t" 5 (fun _ => some "new")
    (fun s => s) ⟨0, FsEventKind.Remove, ["t"]⟩ ⟨2, FsEventKind.Create, ["t"]⟩
    "new" (by decide) (by decide) rfl rfl (by decide) rfl

end Quickmd
